import Mathlib

/-!
Verification of the token-bucket rate limiter in `src/token_bucket.rs`.

Modelling conventions:
* A Rust `Instant` is a number of milliseconds on the monotonic clock,
  modelled as a `Nat`; `Instant::checked_sub` fails when the result would
  precede the clock's origin.
* A Rust `Duration` is a number of milliseconds, modelled as a `Nat`.
* `u64` multiplication wraps modulo `2 ^ 64` (release-build semantics);
  the explicit `% U64` marks every spot where the source multiplies two
  `u64` values.
* Each operation reads the monotonic clock; the single reading used by a
  call is passed as an explicit `now : Nat` argument.
* `TokenBucket::take` blocks; its model returns the updated bucket
  together with the number of milliseconds slept (0 when it does not
  sleep).
-/

def U64 : Nat := 2 ^ 64

/-- The `TokenBucket` struct of `src/token_bucket.rs`. -/
structure TokenBucket where
  last_refreshed : Nat
  max_refresh_duration : Nat
  refresh_interval : Nat
deriving DecidableEq, Repr

namespace TokenBucket

/-- `Instant::checked_sub`: `none` when the monotonic clock cannot
represent a point `d` milliseconds before `now`. -/
def checked_sub (now d : Nat) : Option Nat :=
  if d ≤ now then some (now - d) else none

/-- `Instant::checked_duration_since`: `none` when `t` is later than
`now`, otherwise the elapsed time `now - t`. -/
def checked_duration_since (now t : Nat) : Option Nat :=
  if t ≤ now then some (now - t) else none

/-- `TokenBucket::new` (lines 16–35): rejects a zero refresh interval,
then builds the synthetic past timestamp with `checked_sub`; both `u64`
products wrap modulo `2 ^ 64`. -/
def new (now refresh_interval_ms max_capacity initial_capacity : Nat) :
    Option TokenBucket :=
  if refresh_interval_ms = 0 then none
  else
    let current_tokens_count := min max_capacity initial_capacity
    match checked_sub now (refresh_interval_ms * current_tokens_count % U64) with
    | none => none
    | some last_refreshed =>
      some { last_refreshed := last_refreshed,
             max_refresh_duration := refresh_interval_ms * max_capacity % U64,
             refresh_interval := refresh_interval_ms }

/-- `TokenBucket::get_effective_last_refreshed` (lines 37–42). -/
def get_effective_last_refreshed (tb : TokenBucket) (now : Nat) : Option Nat :=
  match checked_sub now tb.max_refresh_duration with
  | none => none
  | some floor_time => some (max tb.last_refreshed floor_time)

/-- `TokenBucket::get_next_refreshed_time` (lines 43–47). -/
def get_next_refreshed_time (tb : TokenBucket) (now : Nat) : Option Nat :=
  match tb.get_effective_last_refreshed now with
  | none => none
  | some eff => some (eff + tb.refresh_interval)

/-- `TokenBucket::try_take` (lines 48–54): `some` returns the mutated
bucket, `none` leaves the caller's bucket unchanged. -/
def try_take (tb : TokenBucket) (now : Nat) : Option TokenBucket :=
  match tb.get_next_refreshed_time now with
  | none => none
  | some new_last_refreshed =>
    match checked_duration_since now new_last_refreshed with
    | none => none
    | some _ => some { tb with last_refreshed := new_last_refreshed }

/-- `TokenBucket::take` (lines 56–64): the second component of the
result is the time slept (`new_last_refreshed - now` when the token has
not yet accrued, else 0). -/
def take (tb : TokenBucket) (now : Nat) : Option (TokenBucket × Nat) :=
  match tb.get_effective_last_refreshed now with
  | none => none
  | some effective_last_refreshed =>
    let new_last_refreshed := effective_last_refreshed + tb.refresh_interval
    let slept := match checked_duration_since now new_last_refreshed with
      | none => new_last_refreshed - now
      | some _ => 0
    some ({ tb with last_refreshed := new_last_refreshed }, slept)

/-- `impl fmt::Debug for TokenBucket` (lines 68–84): `none` models
`fmt::Error`; the produced string is what `debug_tuple` renders. -/
def debugFmt (tb : TokenBucket) (now : Nat) : Option String :=
  match tb.get_effective_last_refreshed now with
  | none => none
  | some last_refreshed =>
    match checked_duration_since now last_refreshed with
    | none => none
    | some elapsed =>
      let count := match tb.refresh_interval with
        | 0 => 0
        | r + 1 => elapsed / (r + 1)
      some ("TokenBucket(Some(" ++ toString count ++ "))")

/-- The spec's token count: `floor((now − effective_last_refreshed) /
refresh_interval)` with `effective_last_refreshed = max(last_refreshed,
now − max_refresh_duration)` (spec §3, §4.4). -/
def availableTokens (tb : TokenBucket) (now : Nat) : Nat :=
  (now - max tb.last_refreshed (now - tb.max_refresh_duration)) / tb.refresh_interval

/-- Iterated `try_take` at a fixed clock reading: `some` when all `n`
consecutive calls succeed. -/
def tryTakeIter (now : Nat) : Nat → TokenBucket → Option TokenBucket
  | 0, tb => some tb
  | n + 1, tb =>
    match tb.try_take now with
    | none => none
    | some tb' => tryTakeIter now n tb'

/-- States reachable from construction by `try_take` and `take` calls at
nondecreasing clock readings; the `Nat` component is the clock reading at
which the state was produced (for a sleeping `take`, its wake time). -/
inductive Reachable (now0 ri mc ic : Nat) : TokenBucket → Nat → Prop
  | init (tb : TokenBucket) (h : new now0 ri mc ic = some tb) :
      Reachable now0 ri mc ic tb now0
  | tryTakeSome (tb : TokenBucket) (t now : Nat) (tb' : TokenBucket)
      (h : Reachable now0 ri mc ic tb t) (hle : t ≤ now)
      (hs : tb.try_take now = some tb') :
      Reachable now0 ri mc ic tb' now
  | tryTakeNone (tb : TokenBucket) (t now : Nat)
      (h : Reachable now0 ri mc ic tb t) (hle : t ≤ now)
      (hs : tb.try_take now = none) :
      Reachable now0 ri mc ic tb now
  | takeSome (tb : TokenBucket) (t now : Nat) (tb' : TokenBucket) (s : Nat)
      (h : Reachable now0 ri mc ic tb t) (hle : t ≤ now)
      (hs : tb.take now = some (tb', s)) :
      Reachable now0 ri mc ic tb' (now + s)
  | takeNone (tb : TokenBucket) (t now : Nat)
      (h : Reachable now0 ri mc ic tb t) (hle : t ≤ now)
      (hs : tb.take now = none) :
      Reachable now0 ri mc ic tb now

end TokenBucket

namespace TokenBucket

/-! ### Characterization lemmas for the operations -/

theorem new_eq_some {now ri mc ic : Nat} {tb : TokenBucket}
    (h : new now ri mc ic = some tb) :
    0 < ri ∧ ri * min mc ic % U64 ≤ now ∧
      tb = ⟨now - ri * min mc ic % U64, ri * mc % U64, ri⟩ := by
  unfold new checked_sub at h
  split at h
  · exact absurd h (by simp)
  · next hri =>
    by_cases hle : ri * (min mc ic) % U64 ≤ now
    · simp only [hle, if_pos] at h
      refine ⟨Nat.pos_of_ne_zero hri, hle, ?_⟩
      simp only [Option.some.injEq] at h
      exact h.symm
    · simp [hle] at h

theorem new_eq_none {now ri mc ic : Nat} :
    new now ri mc ic = none ↔ ri = 0 ∨ now < ri * min mc ic % U64 := by
  unfold new checked_sub
  split
  · simp_all
  · next hri =>
    by_cases hle : ri * (min mc ic) % U64 ≤ now
    · simp [hle, hri, Nat.not_lt.mpr hle]
    · simp [hle, Nat.lt_of_not_le hle]

theorem try_take_eq (tb : TokenBucket) (now : Nat) :
    tb.try_take now =
      if tb.max_refresh_duration ≤ now ∧ max tb.last_refreshed (now - tb.max_refresh_duration) + tb.refresh_interval ≤ now
      then some { tb with last_refreshed := max tb.last_refreshed (now - tb.max_refresh_duration) + tb.refresh_interval }
      else none := by
  unfold try_take get_next_refreshed_time get_effective_last_refreshed
    checked_sub checked_duration_since
  by_cases h1 : tb.max_refresh_duration ≤ now
  · by_cases h2 : max tb.last_refreshed (now - tb.max_refresh_duration) + tb.refresh_interval ≤ now
    · simp [h1, h2]
    · simp [h1, h2]
  · simp [h1]

theorem take_eq_some {tb : TokenBucket} {now : Nat}
    (h : tb.max_refresh_duration ≤ now) :
    tb.take now =
      some ({ tb with last_refreshed := max tb.last_refreshed (now - tb.max_refresh_duration) + tb.refresh_interval },
            if now < max tb.last_refreshed (now - tb.max_refresh_duration) + tb.refresh_interval
            then max tb.last_refreshed (now - tb.max_refresh_duration) + tb.refresh_interval - now
            else 0) := by
  unfold take get_effective_last_refreshed checked_sub checked_duration_since
  by_cases h2 : max tb.last_refreshed (now - tb.max_refresh_duration) + tb.refresh_interval ≤ now
  · simp [h, h2, Nat.not_lt.mpr h2]
  · simp [h, h2, Nat.lt_of_not_le h2]

theorem take_isSome_iff (tb : TokenBucket) (now : Nat) :
    (tb.take now).isSome ↔ tb.max_refresh_duration ≤ now := by
  constructor
  · intro hs
    by_contra hlt
    unfold take get_effective_last_refreshed checked_sub at hs
    simp [hlt] at hs
  · intro h
    rw [take_eq_some h]
    rfl

end TokenBucket

namespace TokenBucket

/-- Every reachable state keeps the construction-time fields, and its
`last_refreshed` never exceeds the clock reading that produced it. -/
theorem reachable_inv {now0 ri mc ic : Nat} {tb : TokenBucket} {t : Nat}
    (h : Reachable now0 ri mc ic tb t) :
    0 < ri ∧ tb.refresh_interval = ri ∧
      tb.max_refresh_duration = ri * mc % U64 ∧ tb.last_refreshed ≤ t := by
  induction h with
  | init tb h0 =>
    obtain ⟨hri, hle, htb⟩ := new_eq_some h0
    subst htb
    exact ⟨hri, rfl, rfl, Nat.sub_le _ _⟩
  | tryTakeSome tb t now tb' h hle hs ih =>
    rw [try_take_eq] at hs
    split at hs
    · next hc =>
      simp only [Option.some.injEq] at hs
      subst hs
      exact ⟨ih.1, ih.2.1, ih.2.2.1, hc.2⟩
    · exact absurd hs (by simp)
  | tryTakeNone tb t now h hle hs ih =>
    exact ⟨ih.1, ih.2.1, ih.2.2.1, le_trans ih.2.2.2 hle⟩
  | takeSome tb t now tb' s h hle hs ih =>
    have hmrd : tb.max_refresh_duration ≤ now := by
      have hiff := take_isSome_iff tb now
      rw [hs] at hiff
      exact hiff.mp rfl
    rw [take_eq_some hmrd] at hs
    simp only [Option.some.injEq, Prod.mk.injEq] at hs
    obtain ⟨htb', hs2⟩ := hs
    subst htb'
    refine ⟨ih.1, ih.2.1, ih.2.2.1, ?_⟩
    simp only
    by_cases hlt : now < max tb.last_refreshed (now - tb.max_refresh_duration) + tb.refresh_interval
    · rw [if_pos hlt] at hs2
      omega
    · rw [if_neg hlt] at hs2
      omega
  | takeNone tb t now h hle hs ih =>
    exact ⟨ih.1, ih.2.1, ih.2.2.1, le_trans ih.2.2.2 hle⟩

/-- Each successful `try_take` in a burst advances `last_refreshed` by at
least one `refresh_interval`, and the final success leaves it at or below
the (fixed) clock reading. -/
theorem tryTakeIter_bound {now : Nat} {n : Nat} {tb tb' : TokenBucket}
    (h : tryTakeIter now n tb = some tb') :
    tb.last_refreshed + n * tb.refresh_interval ≤ tb'.last_refreshed ∧
      tb'.refresh_interval = tb.refresh_interval ∧
      (0 < n → tb'.last_refreshed ≤ now) := by
  induction n generalizing tb with
  | zero =>
    simp only [tryTakeIter, Option.some.injEq] at h
    subst h
    simp
  | succ n ih =>
    simp only [tryTakeIter] at h
    cases hstep : tb.try_take now with
    | none => simp [hstep] at h
    | some tb1 =>
      simp only [hstep] at h
      obtain ⟨h1, h2, h3⟩ := ih h
      rw [try_take_eq] at hstep
      split at hstep
      · next hc =>
        simp only [Option.some.injEq] at hstep
        subst hstep
        simp only at h1 h2
        refine ⟨?_, h2, fun _ => ?_⟩
        · rw [Nat.succ_mul]
          omega
        · rcases Nat.eq_zero_or_pos n with hn | hn
          · subst hn
            simp only [tryTakeIter, Option.some.injEq] at h
            subst h
            exact hc.2
          · exact h3 hn
      · exact absurd hstep (by simp)

end TokenBucket

namespace TokenBucket

theorem string_append_assoc (a b c : String) : (a ++ b) ++ c = a ++ (b ++ c) := by
  rcases a with ⟨la⟩
  rcases b with ⟨lb⟩
  rcases c with ⟨lc⟩
  show String.mk (la ++ lb ++ lc) = String.mk (la ++ (lb ++ lc))
  rw [List.append_assoc]

/-! ### Claim C1 -/

/-- C1 (counterexample): the bucket built by `new 0 100 10 0` has
`last_refreshed = 0`, `max_refresh_duration = 1000`, `refresh_interval =
100`; at `now = 100` the claim's threshold `effective_last_refreshed +
refresh_interval = max(0, 100 − 1000) + 100 = 100` is reached, so the
claim says `try_take` succeeds — but the code returns `none`, because
`Instant::now().checked_sub(max_refresh_duration)` fails on the young
monotonic clock. -/
theorem C1_counterexample :
    new 0 100 10 0 = some ⟨0, 1000, 100⟩ ∧
      max 0 (100 - 1000) + 100 ≤ 100 ∧
      (⟨0, 1000, 100⟩ : TokenBucket).try_take 100 = none := by
  decide

/-- C1 (amended): `try_take` succeeds iff `now ≥ max_refresh_duration`
(the monotonic clock can represent `now − max_refresh_duration`) and
`now ≥ effective_last_refreshed + refresh_interval` with
`effective_last_refreshed = max(last_refreshed, now −
max_refresh_duration)`; equality counts as success; on success it sets
`last_refreshed` to `effective_last_refreshed + refresh_interval`, and
on failure it returns `none`, leaving the bucket unchanged. -/
theorem C1_try_take_spec (tb : TokenBucket) (now : Nat) :
    tb.try_take now =
      if tb.max_refresh_duration ≤ now ∧ max tb.last_refreshed (now - tb.max_refresh_duration) + tb.refresh_interval ≤ now
      then some { tb with last_refreshed := max tb.last_refreshed (now - tb.max_refresh_duration) + tb.refresh_interval }
      else none :=
  try_take_eq tb now

/-! ### Claim C2 -/

/-- C2: in `take` (on any call where the effective timestamp is
representable, i.e. `max_refresh_duration ≤ now`), the new timestamp
`next = effective_last_refreshed + refresh_interval` is computed once,
before any sleep, from the same `effective_last_refreshed` used to
decide whether to sleep; the call sleeps `next − now` when `now < next`
and `0` otherwise, and in either case `last_refreshed` is set to `next`
(the model fixes the sleep duration from `now` at computation time, so
the update is independent of when the sleep returns). -/
theorem C2_take_spec (tb : TokenBucket) (now : Nat)
    (h : tb.max_refresh_duration ≤ now) :
    tb.take now =
      some ({ tb with last_refreshed := max tb.last_refreshed (now - tb.max_refresh_duration) + tb.refresh_interval },
            if now < max tb.last_refreshed (now - tb.max_refresh_duration) + tb.refresh_interval
            then max tb.last_refreshed (now - tb.max_refresh_duration) + tb.refresh_interval - now
            else 0) :=
  take_eq_some h

/-- C2 (witness): the bucket `⟨100, 200, 50⟩` at `now = 200`. -/
theorem C2_witness :
    (⟨100, 200, 50⟩ : TokenBucket).max_refresh_duration ≤ 200 ∧
      (⟨100, 200, 50⟩ : TokenBucket).take 200 =
        some ({ (⟨100, 200, 50⟩ : TokenBucket) with last_refreshed := max 100 (200 - 200) + 50 },
              if (200 : Nat) < max 100 (200 - 200) + 50 then max 100 (200 - 200) + 50 - 200 else 0) :=
  ⟨by decide, C2_take_spec ⟨100, 200, 50⟩ 200 (by decide)⟩

/-! ### Claim C3 -/

/-- C3 (counterexample): with `refresh_interval_ms = 2 ^ 63` and
`max_capacity = 2`, the product `2 ^ 63 × 2 = 2 ^ 64` does not fit a
`u64`, so the claim requires construction to return absent; instead the
`u64` multiplication wraps to `0` and construction returns a bucket
(with `max_refresh_duration = 0`). -/
theorem C3_counterexample :
    U64 ≤ 2 ^ 63 * 2 ∧ new 0 (2 ^ 63) 2 0 = some ⟨0, 0, 2 ^ 63⟩ := by
  decide

/-- C3 (amended): construction returns absent exactly when
`refresh_interval_ms = 0` or when `now − (refresh_interval_ms ×
min(initial_capacity, max_capacity) mod 2 ^ 64)` cannot be represented
on the monotonic clock; both `u64` products wrap modulo `2 ^ 64` instead
of causing an absent result, and in every other case construction
returns a bucket. -/
theorem C3_new_none_iff (now ri mc ic : Nat) :
    new now ri mc ic = none ↔ ri = 0 ∨ now < ri * min mc ic % U64 :=
  new_eq_none

/-! ### Claim C4 -/

/-- C4 (counterexample): `new 5 (2 ^ 63) 3 0` succeeds, but the
resulting `max_refresh_duration` is `(2 ^ 63 × 3) mod 2 ^ 64 = 2 ^ 63`,
not `refresh_interval_ms × max_capacity = 3 × 2 ^ 63` as the claim
states. -/
theorem C4_counterexample :
    new 5 (2 ^ 63) 3 0 = some ⟨5, 2 ^ 63, 2 ^ 63⟩ ∧
      (⟨5, 2 ^ 63, 2 ^ 63⟩ : TokenBucket).max_refresh_duration ≠ 2 ^ 63 * 3 := by
  decide

/-- C4 (amended): when construction succeeds and the product
`refresh_interval_ms × max_capacity` fits a `u64`, the bucket satisfies
`refresh_interval = refresh_interval_ms`, `max_refresh_duration =
refresh_interval_ms × max_capacity`, and `last_refreshed = now −
refresh_interval × min(max_capacity, initial_capacity)`, so that exactly
`min(max_capacity, initial_capacity)` tokens are immediately available
(the initial capacity is silently clamped to `max_capacity`). -/
theorem C4_new_fields {now ri mc ic : Nat} {tb : TokenBucket}
    (h : new now ri mc ic = some tb) (hfit : ri * mc < U64) :
    tb = ⟨now - ri * min mc ic, ri * mc, ri⟩ ∧
      availableTokens tb now = min mc ic := by
  obtain ⟨hri, hle, htb⟩ := new_eq_some h
  have hminfit : ri * min mc ic < U64 :=
    lt_of_le_of_lt (Nat.mul_le_mul_left ri (Nat.min_le_left mc ic)) hfit
  rw [Nat.mod_eq_of_lt hminfit] at hle htb
  rw [Nat.mod_eq_of_lt hfit] at htb
  subst htb
  refine ⟨rfl, ?_⟩
  unfold availableTokens
  simp only
  have h1 : now - ri * mc ≤ now - ri * min mc ic := by
    have := Nat.mul_le_mul_left ri (Nat.min_le_left mc ic)
    omega
  rw [Nat.max_eq_left h1, Nat.sub_sub_self hle]
  exact Nat.mul_div_cancel_left _ hri

/-- C4 (witness): the driver program's parameters `new(100, 25, 3)` at
`now = 10000`. -/
theorem C4_witness :
    new 10000 100 25 3 = some ⟨9700, 2500, 100⟩ ∧ 100 * 25 < U64 ∧
      ((⟨9700, 2500, 100⟩ : TokenBucket) = ⟨10000 - 100 * min 25 3, 100 * 25, 100⟩ ∧
        availableTokens ⟨9700, 2500, 100⟩ 10000 = min 25 3) :=
  ⟨by decide, by decide,
    @C4_new_fields 10000 100 25 3 ⟨9700, 2500, 100⟩ (by decide) (by decide)⟩

end TokenBucket

namespace TokenBucket

/-! ### Claim C5 -/

/-- C5: for every bucket reachable by construction followed by any
sequence of `try_take` and `take` calls, and every clock reading `now`
at or after the reading that produced the state, the effective
last-refreshed timestamp does not exceed `now` (so the available token
count `floor((now − effective_last_refreshed) / refresh_interval)` is a
genuine nonnegative quotient) and that count is at most `max_capacity`;
in particular a bucket left idle arbitrarily long holds only
`max_capacity` tokens. -/
theorem C5_available_bounded {now0 ri mc ic : Nat} {tb : TokenBucket} {t now : Nat}
    (h : Reachable now0 ri mc ic tb t) (hnow : t ≤ now) :
    max tb.last_refreshed (now - tb.max_refresh_duration) ≤ now ∧
      availableTokens tb now ≤ mc := by
  obtain ⟨hri, hr, hm, hlr⟩ := reachable_inv h
  have hlrnow : tb.last_refreshed ≤ now := le_trans hlr hnow
  refine ⟨max_le hlrnow (Nat.sub_le _ _), ?_⟩
  unfold availableTokens
  have hD : now - max tb.last_refreshed (now - tb.max_refresh_duration) ≤
      tb.max_refresh_duration := by omega
  have hmle : tb.max_refresh_duration ≤ ri * mc := hm ▸ Nat.mod_le _ _
  calc (now - max tb.last_refreshed (now - tb.max_refresh_duration)) / tb.refresh_interval
      ≤ ri * mc / tb.refresh_interval := Nat.div_le_div_right (le_trans hD hmle)
    _ = ri * mc / ri := by rw [hr]
    _ = mc := Nat.mul_div_cancel_left _ hri

/-- C5 (witness): the freshly constructed bucket of `new 10000 1 2 2`,
observed at its construction instant. -/
theorem C5_witness :
    max (⟨9998, 2, 1⟩ : TokenBucket).last_refreshed
        (10000 - (⟨9998, 2, 1⟩ : TokenBucket).max_refresh_duration) ≤ 10000 ∧
      availableTokens ⟨9998, 2, 1⟩ 10000 ≤ 2 :=
  C5_available_bounded (@Reachable.init 10000 1 2 2 ⟨9998, 2, 1⟩ (by decide))
    (le_refl 10000)

/-! ### Claim C6 -/

/-- C6: `take` never sleeps for longer than one `refresh_interval`: for
every bucket state satisfying the invariant `last_refreshed ≤ now`, the
sleep duration `take` computes is at most `refresh_interval` (`try_take`
is modelled without any sleep component, so it never blocks). -/
theorem C6_sleep_bounded {tb : TokenBucket} {now : Nat} {tb' : TokenBucket} {s : Nat}
    (hlr : tb.last_refreshed ≤ now) (hs : tb.take now = some (tb', s)) :
    s ≤ tb.refresh_interval := by
  have hmrd : tb.max_refresh_duration ≤ now := by
    have hiff := take_isSome_iff tb now
    rw [hs] at hiff
    exact hiff.mp rfl
  rw [take_eq_some hmrd] at hs
  simp only [Option.some.injEq, Prod.mk.injEq] at hs
  obtain ⟨-, hs2⟩ := hs
  by_cases hlt : now < max tb.last_refreshed (now - tb.max_refresh_duration) + tb.refresh_interval
  · rw [if_pos hlt] at hs2
    omega
  · rw [if_neg hlt] at hs2
    omega

/-- C6 (witness): `⟨100, 100, 50⟩` at `now = 120` sleeps 30 ms, within
its 50 ms refresh interval. -/
theorem C6_witness :
    (⟨100, 100, 50⟩ : TokenBucket).last_refreshed ≤ 120 ∧
      (⟨100, 100, 50⟩ : TokenBucket).take 120 = some (⟨150, 100, 50⟩, 30) ∧
      (30 : Nat) ≤ (⟨100, 100, 50⟩ : TokenBucket).refresh_interval :=
  ⟨by decide, by decide,
    @C6_sleep_bounded ⟨100, 100, 50⟩ 120 ⟨150, 100, 50⟩ 30 (by decide) (by decide)⟩

/-! ### Claim C7 -/

/-- C7: bounded burst — starting from a freshly constructed bucket and
with the clock held fixed at the construction reading, the number of
consecutive `try_take` calls that all succeed never exceeds
`min(max_capacity, initial_capacity)`. -/
theorem C7_burst_bound {now0 ri mc ic n : Nat} {tb tb' : TokenBucket}
    (h : new now0 ri mc ic = some tb)
    (hiter : tryTakeIter now0 n tb = some tb') :
    n ≤ min mc ic := by
  obtain ⟨hri, hle, htb⟩ := new_eq_some h
  obtain ⟨h1, h2, h3⟩ := tryTakeIter_bound hiter
  rcases Nat.eq_zero_or_pos n with hn | hn
  · omega
  · have hlast := h3 hn
    subst htb
    simp only at h1 h2 hle
    have hp : ri * min mc ic % U64 ≤ ri * min mc ic := Nat.mod_le _ _
    have hmul : n * ri ≤ ri * min mc ic := by omega
    rw [Nat.mul_comm] at hmul
    exact Nat.le_of_mul_le_mul_left hmul hri

/-- C7 (witness): `new 10000 1 2 2` admits a burst of 2 successful
`try_take` calls at the fixed reading 10000, and 2 ≤ min 2 2. -/
theorem C7_witness :
    new 10000 1 2 2 = some ⟨9998, 2, 1⟩ ∧
      tryTakeIter 10000 2 ⟨9998, 2, 1⟩ = some ⟨10000, 2, 1⟩ ∧
      (2 : Nat) ≤ min 2 2 :=
  ⟨by decide, by decide,
    @C7_burst_bound 10000 1 2 2 2 ⟨9998, 2, 1⟩ ⟨10000, 2, 1⟩ (by decide) (by decide)⟩

/-! ### Claim C8 -/

/-- C8 (counterexample): `new 0 50 10 0` succeeds, yet `take` at the
later reading `now = 0` returns `none` — a failure — because
`Instant::now().checked_sub(max_refresh_duration)` cannot represent
`0 − 500` on the monotonic clock; the claim says `take` always returns
consuming one token. -/
theorem C8_counterexample :
    new 0 50 10 0 = some ⟨0, 500, 50⟩ ∧
      (⟨0, 500, 50⟩ : TokenBucket).take 0 = none := by
  decide

/-- C8 (amended): `take` returns successfully exactly when `now ≥
max_refresh_duration`; when the monotonic clock reading is smaller, both
`take` and `try_take` report absent without consuming, so an absent
result can also signal a too-young monotonic clock, not only an
unavailable token. -/
theorem C8_take_total_iff (tb : TokenBucket) (now : Nat) :
    (tb.take now).isSome ↔ tb.max_refresh_duration ≤ now :=
  take_isSome_iff tb now

end TokenBucket

namespace TokenBucket

/-! ### Claim C9 -/

/-- C9: whenever the `Debug` rendering produces a string, that string
starts with the tag `"TokenBucket"` and displays the token count
`floor((now − effective_last_refreshed) / refresh_interval)`, with a
degenerate (zero) `refresh_interval` reported as zero instead of a
division; the rendering is a function of the bucket and the clock alone
and returns no updated state, so it cannot alter the outcome of a
`try_take` or `take` that follows at the same instant. -/
theorem C9_debug_spec {tb : TokenBucket} {now : Nat} {s : String}
    (h : tb.debugFmt now = some s) :
    (∃ rest, s = "TokenBucket" ++ rest) ∧
      ∃ eff, tb.get_effective_last_refreshed now = some eff ∧
        s = "TokenBucket(Some(" ++
              toString (if tb.refresh_interval = 0 then 0 else (now - eff) / tb.refresh_interval) ++ "))" := by
  unfold debugFmt at h
  cases heff : tb.get_effective_last_refreshed now with
  | none =>
    rw [heff] at h
    exact absurd h (by simp)
  | some eff =>
    rw [heff] at h
    unfold checked_duration_since at h
    by_cases hle : eff ≤ now
    · simp only [hle, if_pos] at h
      have hcount : (match tb.refresh_interval with
          | 0 => 0
          | r + 1 => (now - eff) / (r + 1)) =
          if tb.refresh_interval = 0 then 0 else (now - eff) / tb.refresh_interval := by
        rcases hri : tb.refresh_interval with _ | r <;> simp
      rw [hcount] at h
      simp only [Option.some.injEq] at h
      subst h
      refine ⟨⟨"(Some(" ++ toString (if tb.refresh_interval = 0 then 0 else (now - eff) / tb.refresh_interval) ++ "))", ?_⟩,
        eff, rfl, rfl⟩
      rw [← string_append_assoc, ← string_append_assoc]
      rfl
    · simp [hle] at h

/-- C9 (witness): the bucket `⟨0, 2, 1⟩` at `now = 5` renders
`"TokenBucket(Some(2))"`. -/
theorem C9_witness :
    (∃ rest, "TokenBucket(Some(2))" = "TokenBucket" ++ rest) ∧
      ∃ eff, (⟨0, 2, 1⟩ : TokenBucket).get_effective_last_refreshed 5 = some eff ∧
        "TokenBucket(Some(2))" = "TokenBucket(Some(" ++
          toString (if (⟨0, 2, 1⟩ : TokenBucket).refresh_interval = 0 then 0
                    else (5 - eff) / (⟨0, 2, 1⟩ : TokenBucket).refresh_interval) ++ "))" :=
  @C9_debug_spec ⟨0, 2, 1⟩ 5 "TokenBucket(Some(2))" (by decide)

/-! ### Claim C10 -/

/-- C10: every `try_take` or `take` that succeeds at clock reading `now`
sets `last_refreshed` to `max(last_refreshed, now − max_refresh_duration)
+ refresh_interval`, which is at least the old `last_refreshed` plus
`refresh_interval` — strictly larger when `refresh_interval` is positive
— so no successful consumption ever moves `last_refreshed` backwards. -/
theorem C10_last_refreshed_monotone {tb : TokenBucket} {now : Nat} {tb' : TokenBucket}
    (h : tb.try_take now = some tb' ∨ ∃ s, tb.take now = some (tb', s)) :
    tb'.last_refreshed = max tb.last_refreshed (now - tb.max_refresh_duration) + tb.refresh_interval ∧
      tb.last_refreshed + tb.refresh_interval ≤ tb'.last_refreshed ∧
      (0 < tb.refresh_interval → tb.last_refreshed < tb'.last_refreshed) := by
  rcases h with h | ⟨s, h⟩
  · rw [try_take_eq] at h
    split at h
    · next hc =>
      simp only [Option.some.injEq] at h
      subst h
      refine ⟨rfl, ?_, fun hpos => ?_⟩
      · show tb.last_refreshed + tb.refresh_interval ≤
          max tb.last_refreshed (now - tb.max_refresh_duration) + tb.refresh_interval
        omega
      · show tb.last_refreshed <
          max tb.last_refreshed (now - tb.max_refresh_duration) + tb.refresh_interval
        omega
    · exact absurd h (by simp)
  · have hmrd : tb.max_refresh_duration ≤ now := by
      have hiff := take_isSome_iff tb now
      rw [h] at hiff
      exact hiff.mp rfl
    rw [take_eq_some hmrd] at h
    simp only [Option.some.injEq, Prod.mk.injEq] at h
    obtain ⟨htb', -⟩ := h
    subst htb'
    refine ⟨rfl, ?_, fun hpos => ?_⟩
    · show tb.last_refreshed + tb.refresh_interval ≤
        max tb.last_refreshed (now - tb.max_refresh_duration) + tb.refresh_interval
      omega
    · show tb.last_refreshed <
        max tb.last_refreshed (now - tb.max_refresh_duration) + tb.refresh_interval
      omega

/-- C10 (witness): the successful `try_take` of `⟨8, 2, 1⟩` at
`now = 10`. -/
theorem C10_witness :
    (⟨8, 2, 1⟩ : TokenBucket).try_take 10 = some ⟨9, 2, 1⟩ ∧
      ((⟨9, 2, 1⟩ : TokenBucket).last_refreshed = max 8 (10 - 2) + 1 ∧
        8 + 1 ≤ (⟨9, 2, 1⟩ : TokenBucket).last_refreshed ∧
        ((0 : Nat) < 1 → 8 < (⟨9, 2, 1⟩ : TokenBucket).last_refreshed)) :=
  ⟨by decide, @C10_last_refreshed_monotone ⟨8, 2, 1⟩ 10 ⟨9, 2, 1⟩ (Or.inl (by decide))⟩

end TokenBucket
